import Mathlib

/-!
Verification of the windowing, timestamp-formatting, subtitle-assembly and
per-window recognition logic of `stt_google.py`.

Modelling conventions:
* Python integers are `Int`; Python `divmod` with a positive divisor is
  floor division, which coincides with Lean's Euclidean `/` and `%` on `Int`
  for positive divisors.
* `len(seg)` (the audio duration in milliseconds) is a parameter `len : Int`.
* The `while` loop of `chunk_audio` is modelled with explicit fuel returning
  `Option`: `none` models non-termination within the fuel bound.  The wrapper
  `chunk_audio` supplies fuel `len.toNat + 1`, which is proved sufficient
  whenever `0 < overlap_ms < chunk_ms`.
* The external recognizer (`recognizer.recognize_google`) is an opaque
  collaborator: it is modelled as a function from a window to a tagged
  result, whose error constructors mirror the two caught exception classes
  `sr.UnknownValueError` and `sr.RequestError`.
* `write_srt` writes a file in the source; here it returns the file content.
-/

/-- Outcome of one call to the external recognizer for one window:
recognized text, `sr.UnknownValueError` (nothing recognized), or
`sr.RequestError` (service/network failure with a message). -/
inductive RecResult where
  | ok (text : String)
  | unknownValueError
  | requestError (msg : String)
deriving DecidableEq

/-- Loop body of `chunk_audio` (lines 36-42 of `stt_google.py`):
`while i < len(seg): start = i; end = min(i + chunk_ms, len(seg));
chunks.append((start, end)); if end == len(seg): break; i = end - overlap_ms`.
Fuel-indexed; `none` models running out of fuel (non-termination). -/
def chunkLoop : Nat → Int → Int → Int → Int → List (Int × Int) →
    Option (List (Int × Int))
  | 0, _, _, _, _, _ => none
  | fuel + 1, i, len, chunk_ms, overlap_ms, chunks =>
    if i < len then
      if min (i + chunk_ms) len = len then
        some (chunks ++ [(i, min (i + chunk_ms) len)])
      else
        chunkLoop fuel (min (i + chunk_ms) len - overlap_ms) len chunk_ms
          overlap_ms (chunks ++ [(i, min (i + chunk_ms) len)])
    else
      some chunks

/-- Model of `chunk_audio(seg, chunk_ms, overlap_ms)`: produce
`(start_ms, end_ms)` windows over an input of duration `len` ms.  Fuel
`len.toNat + 1` bounds the number of loop iterations; it is proved
sufficient whenever `0 < overlap_ms < chunk_ms`. -/
def chunk_audio (len chunk_ms overlap_ms : Int) : Option (List (Int × Int)) :=
  chunkLoop (len.toNat + 1) 0 len chunk_ms overlap_ms []

/-- Python's zero-padding format `f"{n:0Wd}"`: pad the decimal representation
of `n` with leading zeros to width `width`, the sign (if any) before the
zeros. -/
def pythonZeroPad (width : Nat) (n : Int) : String :=
  if n < 0 then
    "-" ++ String.mk (List.replicate (width - 1 - (toString (-n)).length) '0')
      ++ toString (-n)
  else
    String.mk (List.replicate (width - (toString n).length) '0') ++ toString n

/-- Model of the nested `ms_to_srt_time` (lines 49-53 of `stt_google.py`):
`s, ms = divmod(ms, 1000); h, s = divmod(s, 3600); m, s = divmod(s, 60);
return f"{h:02d}:{m:02d}:{s:02d},{ms:03d}"`.  Lean's `/` and `%` on `Int`
agree with Python's `divmod` for the positive divisors used here. -/
def ms_to_srt_time (ms : Int) : String :=
  pythonZeroPad 2 (ms / 1000 / 3600) ++ ":"
    ++ pythonZeroPad 2 (ms / 1000 % 3600 / 60) ++ ":"
    ++ pythonZeroPad 2 (ms / 1000 % 3600 % 60) ++ ","
    ++ pythonZeroPad 3 (ms % 1000)

/-- Model of Python's `str.strip()`: remove leading and trailing whitespace
characters. -/
def pyStrip (s : String) : String :=
  String.mk
    (((s.data.dropWhile Char.isWhitespace).reverse.dropWhile
      Char.isWhitespace).reverse)

/-- Lines accumulated by the `for idx, (start, end, text) in
enumerate(segments, start=1)` loop of `write_srt` (lines 55-60), started at
index `idx`: per segment the index line, the time-range line, the stripped
text line and a blank line. -/
def srtLinesFrom (idx : Nat) : List (Int × Int × String) → List String
  | [] => []
  | (start, e, text) :: rest =>
    toString idx :: (ms_to_srt_time start ++ " --> " ++ ms_to_srt_time e)
      :: pyStrip text :: "" :: srtLinesFrom (idx + 1) rest

/-- Model of `write_srt(segments, out_path)`: the source joins the lines with
newlines and writes them to a file; the model returns the file content. -/
def write_srt (segments : List (Int × Int × String)) : String :=
  String.intercalate "\n" (srtLinesFrom 1 segments)

/-- Text obtained for one window in `transcribe_wav_google` (lines 98-104):
the recognizer's text on success, and `""` when either
`sr.UnknownValueError` or `sr.RequestError` is caught. -/
def windowText (recog : Int × Int → RecResult) (w : Int × Int) : String :=
  match recog w with
  | .ok text => text
  | .unknownValueError => ""
  | .requestError _ => ""

/-- Per-window loop of `transcribe_wav_google` (lines 92-108): for each
window in order, obtain its text, and when `text.strip()` is non-empty
append `(start_ms, end_ms, text)` to `srt_segments` and `text` to `texts`.
Returns `(srt_segments, texts)`. -/
def transcribeWindows (recog : Int × Int → RecResult) :
    List (Int × Int) → List (Int × Int × String) × List String
  | [] => ([], [])
  | w :: rest =>
    let text := windowText recog w
    let r := transcribeWindows recog rest
    if pyStrip text ≠ "" then ((w.1, w.2, text) :: r.1, text :: r.2) else r

/-- Model of `transcribe_wav_google` (lines 69-111) on an input of duration
`len` ms: chunk the audio, run the recognizer on every window, and return
`(full_text, srt_segments)` where `full_text = " ".join(texts)`.  `none`
models the windowing loop not terminating. -/
def transcribe_wav_google (recog : Int × Int → RecResult)
    (len chunk_ms overlap_ms : Int) :
    Option (String × List (Int × Int × String)) :=
  (chunk_audio len chunk_ms overlap_ms).map fun windows =>
    let r := transcribeWindows recog windows
    (String.intercalate " " r.2, r.1)

/-- Zero-padding of a natural number to a given width, used by the
specification-side timestamp formula. -/
def natZeroPad (width : Nat) (n : Nat) : String :=
  String.mk (List.replicate (width - (toString n).length) '0') ++ toString n

/-- Specification-side timestamp formula: hours, minutes, seconds and
milliseconds extracted directly by division and remainder, each zero-padded
(2 digits for H/M/S, 3 for milliseconds), in the layout `HH:MM:SS,mmm`. -/
def srtTimeSpec (n : Nat) : String :=
  natZeroPad 2 (n / 3600000) ++ ":" ++ natZeroPad 2 (n / 60000 % 60) ++ ":"
    ++ natZeroPad 2 (n / 1000 % 60) ++ "," ++ natZeroPad 3 (n % 1000)

/-- Specification-side subtitle block for one numbered segment: the sequence
number line, the time-range line, the trimmed text line, and a blank line. -/
def srtBlock (numbered : Nat × (Int × Int × String)) : List String :=
  [toString numbered.1,
   ms_to_srt_time numbered.2.1 ++ " --> " ++ ms_to_srt_time numbered.2.2.1,
   pyStrip numbered.2.2.2, ""]

/-- Specification-side subtitle layout: segments numbered consecutively from
1 in list order, each rendered as its four-line block. -/
def specSrtLines (segments : List (Int × Int × String)) : List String :=
  ((List.enumFrom 1 segments).map srtBlock).flatten

/-- Reading of the flat-transcript claim exactly as stated: join with single
spaces the texts that are non-empty as raw strings. -/
def joinNonEmptyRaw (texts : List String) : String :=
  String.intercalate " " (texts.filter (fun t => t ≠ ""))

/-- Example recognizer: "hello" for the window starting at 0, a single
space character for every other window. -/
def recogHelloSpace : Int × Int → RecResult :=
  fun w => if w.1 = 0 then .ok "hello" else .ok " "

/-- Example recognizer: "hello" for the window starting at 0, "world" for
every other window. -/
def recogHelloWorld : Int × Int → RecResult :=
  fun w => if w.1 = 0 then .ok "hello" else .ok "world"

/-- Example recognizer: recognition raises `sr.UnknownValueError` on the
window starting at 0 and succeeds elsewhere. -/
def recogUnknownAt0 : Int × Int → RecResult :=
  fun w => if w.1 = 0 then .unknownValueError else .ok "ok"

/-- Example recognizer: every window is recognized as a single space. -/
def recogAllSpace : Int × Int → RecResult :=
  fun _ => .ok " "

/-- Helper lemma: a window whose caught text strips to the empty string
contributes nothing to the per-window loop: deleting it from the window
list leaves both accumulated lists unchanged. -/
theorem transcribeWindows_skip (recog : Int × Int → RecResult)
    (w : Int × Int) (h : pyStrip (windowText recog w) = "") :
    ∀ ws1 ws2 : List (Int × Int),
      transcribeWindows recog (ws1 ++ w :: ws2) =
        transcribeWindows recog (ws1 ++ ws2) := by
  intro ws1 ws2
  induction ws1 with
  | nil => simp [transcribeWindows, h]
  | cons a l ih => simp [transcribeWindows, ih]

/-- Helper lemma: the segment list built by the per-window loop keeps, in
window order, exactly the windows whose caught text is non-empty after
stripping, paired with their raw (unstripped) text. -/
theorem transcribeWindows_fst (recog : Int × Int → RecResult) :
    ∀ ws : List (Int × Int),
      (transcribeWindows recog ws).1 =
        ws.filterMap (fun p =>
          if pyStrip (windowText recog p) ≠ "" then
            some (p.1, p.2, windowText recog p)
          else none) := by
  intro ws
  induction ws with
  | nil => rfl
  | cons a l ih =>
    by_cases h : pyStrip (windowText recog a) = ""
    · simp [transcribeWindows, List.filterMap_cons, h, ih]
    · simp [transcribeWindows, List.filterMap_cons, h, ih]

/-- Helper lemma: the text list built by the per-window loop is exactly the
raw text of each collected segment, in order. -/
theorem transcribeWindows_snd_map (recog : Int × Int → RecResult) :
    ∀ ws : List (Int × Int),
      (transcribeWindows recog ws).2 =
        ((transcribeWindows recog ws).1).map (fun s => s.2.2) := by
  intro ws
  induction ws with
  | nil => rfl
  | cons a l ih =>
    by_cases h : pyStrip (windowText recog a) = ""
    · simp [transcribeWindows, h, ih]
    · simp [transcribeWindows, h, ih]

/-- Helper lemma: the text list built by the per-window loop is the list of
raw per-window texts filtered by being non-empty after stripping. -/
theorem transcribeWindows_snd_filter (recog : Int × Int → RecResult) :
    ∀ ws : List (Int × Int),
      (transcribeWindows recog ws).2 =
        (ws.map (windowText recog)).filter (fun t => pyStrip t ≠ "") := by
  intro ws
  induction ws with
  | nil => rfl
  | cons a l ih =>
    by_cases h : pyStrip (windowText recog a) = ""
    · simp [transcribeWindows, List.filter_cons, h, ih]
    · simp [transcribeWindows, List.filter_cons, h, ih]

/-- Helper lemma: the subtitle lines accumulated from index `idx` are the
flattened four-line blocks of the segments enumerated from `idx`. -/
theorem srtLinesFrom_enumFrom (segments : List (Int × Int × String)) :
    ∀ idx : Nat,
      srtLinesFrom idx segments =
        ((List.enumFrom idx segments).map srtBlock).flatten := by
  induction segments with
  | nil => intro idx; rfl
  | cons s rest ih =>
    intro idx
    obtain ⟨a, b, t⟩ := s
    simp [srtLinesFrom, List.enumFrom, srtBlock, ih]

/-- Helper lemma: Python zero-padding of a natural number viewed as an
integer agrees with natural-number zero-padding. -/
theorem pythonZeroPad_natCast (width : Nat) (m : Nat) :
    pythonZeroPad width (m : Int) = natZeroPad width m := by
  rw [pythonZeroPad, if_neg (by exact not_lt.mpr (Int.natCast_nonneg m))]
  rfl

/-- C4: for every non-negative integer number of milliseconds,
`ms_to_srt_time` returns `HH:MM:SS,mmm` with hours, minutes and seconds
zero-padded to 2 digits and milliseconds zero-padded to 3 digits (hours =
ms / 3600000, minutes = ms / 60000 mod 60, seconds = ms / 1000 mod 60,
milliseconds = ms mod 1000); in particular 0 ms gives "00:00:00,000",
61234 ms gives "00:01:01,234" and 3661000 ms gives "01:01:01,000". -/
theorem ms_to_srt_time_spec_correct :
    (∀ n : Nat, ms_to_srt_time (n : Int) = srtTimeSpec n) ∧
    ms_to_srt_time 0 = "00:00:00,000" ∧
    ms_to_srt_time 61234 = "00:01:01,234" ∧
    ms_to_srt_time 3661000 = "01:01:01,000" := by
  refine ⟨?_, by decide, by decide, by decide⟩
  intro n
  have e1 : (n : Int) / 1000 / 3600 = ((n / 3600000 : Nat) : Int) := by omega
  have e2 : (n : Int) / 1000 % 3600 / 60 = ((n / 60000 % 60 : Nat) : Int) := by
    omega
  have e3 : (n : Int) / 1000 % 3600 % 60 = ((n / 1000 % 60 : Nat) : Int) := by
    omega
  have e4 : (n : Int) % 1000 = ((n % 1000 : Nat) : Int) := by omega
  rw [ms_to_srt_time, srtTimeSpec, e1, e2, e3, e4, pythonZeroPad_natCast,
    pythonZeroPad_natCast, pythonZeroPad_natCast, pythonZeroPad_natCast]

/-- C5: `write_srt` emits entries numbered consecutively from 1 in list
order, each entry consisting of the sequence-number line, the
"start --> end" time-range line, the trimmed text line and a blank line;
in particular the two-segment example produces exactly the eight expected
lines. -/
theorem write_srt_layout :
    (∀ segments : List (Int × Int × String),
      write_srt segments = String.intercalate "\n" (specSrtLines segments)) ∧
    srtLinesFrom 1 [(0, 1000, "a"), (1000, 2000, "b")] =
      ["1", "00:00:00,000 --> 00:00:01,000", "a", "",
       "2", "00:00:01,000 --> 00:00:02,000", "b", ""] := by
  refine ⟨?_, by decide⟩
  intro segments
  rw [write_srt, specSrtLines, srtLinesFrom_enumFrom]

/-- C2: a window whose recognition fails with either caught error kind
(`sr.UnknownValueError` or `sr.RequestError`) contributes no segment and no
transcript text, and processing continues with all subsequent windows:
deleting such a window from the window list leaves the loop's output
unchanged. -/
theorem error_window_skipped (recog : Int × Int → RecResult)
    (w : Int × Int)
    (h : recog w = RecResult.unknownValueError ∨
      ∃ m, recog w = RecResult.requestError m) :
    ∀ ws1 ws2 : List (Int × Int),
      transcribeWindows recog (ws1 ++ w :: ws2) =
        transcribeWindows recog (ws1 ++ ws2) := by
  have hwt : pyStrip (windowText recog w) = "" := by
    rcases h with h | ⟨m, h⟩ <;> simp only [windowText, h] <;> rfl
  exact transcribeWindows_skip recog w hwt

/-- C2 witness: the recognizer failing with `sr.UnknownValueError` on the
window starting at 0 makes that window contribute nothing while the later
window is still processed. -/
theorem error_window_skipped_witness :
    (recogUnknownAt0 (0, 2) = RecResult.unknownValueError ∨
      ∃ m, recogUnknownAt0 (0, 2) = RecResult.requestError m) ∧
    transcribeWindows recogUnknownAt0 ([] ++ (0, 2) :: [(2, 4)]) =
      transcribeWindows recogUnknownAt0 ([] ++ [(2, 4)]) :=
  ⟨Or.inl rfl, error_window_skipped recogUnknownAt0 (0, 2) (Or.inl rfl)
    [] [(2, 4)]⟩

/-- C10: an input of duration 0 produces no windows, and its transcription
yields an empty transcript and an empty segment list. -/
theorem empty_input_empty_output :
    ∀ (chunk_ms overlap_ms : Int) (recog : Int × Int → RecResult),
      chunk_audio 0 chunk_ms overlap_ms = some [] ∧
      transcribe_wav_google recog 0 chunk_ms overlap_ms = some ("", []) := by
  intro c o recog
  have h : chunk_audio 0 c o = some [] := by
    rw [chunk_audio]
    norm_num [chunkLoop]
  exact ⟨h, by rw [transcribe_wav_google, h]; rfl⟩

/-- C6 counterexample: with per-window texts "hello" and " " (a non-empty
whitespace-only string), the code's flat transcript is "hello", while
joining the raw non-empty texts as the claim states gives "hello  ". -/
theorem full_text_raw_join_counterexample :
    (transcribe_wav_google recogHelloSpace 3 2 1).map Prod.fst =
      some "hello" ∧
    chunk_audio 3 2 1 = some [(0, 2), (1, 3)] ∧
    joinNonEmptyRaw ([(0, 2), (1, 3)].map (windowText recogHelloSpace)) =
      "hello  " ∧
    ("hello" : String) ≠ "hello  " :=
  ⟨by decide, by decide, by decide, by decide⟩

/-- C6 amended: the flat transcript joins with single spaces, in window
order, the raw texts of exactly those windows whose text is non-empty
after stripping whitespace. -/
theorem full_text_joins_trimmed_nonempty (recog : Int × Int → RecResult)
    (len chunk_ms overlap_ms : Int) (ws : List (Int × Int))
    (h : chunk_audio len chunk_ms overlap_ms = some ws) :
    (transcribe_wav_google recog len chunk_ms overlap_ms).map Prod.fst =
      some (String.intercalate " "
        ((ws.map (windowText recog)).filter (fun t => pyStrip t ≠ ""))) := by
  rw [transcribe_wav_google, h]
  simp [transcribeWindows_snd_filter]

/-- C6 amended witness: per-window texts "hello" and "world" yield the flat
transcript "hello world". -/
theorem full_text_joins_trimmed_nonempty_witness :
    chunk_audio 3 2 1 = some [(0, 2), (1, 3)] ∧
    (transcribe_wav_google recogHelloWorld 3 2 1).map Prod.fst =
      some (String.intercalate " "
        (([((0 : Int), (2 : Int)), (1, 3)].map
          (windowText recogHelloWorld)).filter (fun t => pyStrip t ≠ ""))) ∧
    String.intercalate " "
        (([((0 : Int), (2 : Int)), (1, 3)].map
          (windowText recogHelloWorld)).filter (fun t => pyStrip t ≠ "")) =
      "hello world" :=
  ⟨by decide,
   full_text_joins_trimmed_nonempty recogHelloWorld 3 2 1 [(0, 2), (1, 3)]
     (by decide),
   by decide⟩

/-- C9: a window whose recognition result is a non-empty whitespace-only
string contributes no segment and no transcript text; inclusion in both
outputs is decided by the text being non-empty after stripping; an included
segment carries its raw text, the text list is exactly the raw texts of the
included segments (so the transcript joins raw texts), and the subtitle
lines render each segment's text trimmed. -/
theorem whitespace_window_semantics (recog : Int × Int → RecResult)
    (w : Int × Int) (t : String) (hrec : recog w = RecResult.ok t)
    (hne : t ≠ "") (htrim : pyStrip t = "") :
    (∀ ws1 ws2 : List (Int × Int),
      transcribeWindows recog (ws1 ++ w :: ws2) =
        transcribeWindows recog (ws1 ++ ws2)) ∧
    (∀ ws : List (Int × Int),
      (transcribeWindows recog ws).1 =
        ws.filterMap (fun p =>
          if pyStrip (windowText recog p) ≠ "" then
            some (p.1, p.2, windowText recog p)
          else none)) ∧
    (∀ ws : List (Int × Int),
      (transcribeWindows recog ws).2 =
        ((transcribeWindows recog ws).1).map (fun s => s.2.2)) ∧
    (∀ (s e : Int) (u : String) (rest : List (Int × Int × String))
        (idx : Nat),
      srtLinesFrom idx ((s, e, u) :: rest) =
        toString idx :: (ms_to_srt_time s ++ " --> " ++ ms_to_srt_time e)
          :: pyStrip u :: "" :: srtLinesFrom (idx + 1) rest) := by
  have hwt : pyStrip (windowText recog w) = "" := by
    simp [windowText, hrec, htrim]
  exact ⟨fun ws1 ws2 => transcribeWindows_skip recog w hwt ws1 ws2,
    transcribeWindows_fst recog, transcribeWindows_snd_map recog,
    fun s e u rest idx => rfl⟩

/-- C9 witness: a recognizer returning the non-empty whitespace-only text
" " on the single window makes that window contribute nothing. -/
theorem whitespace_window_semantics_witness :
    recogAllSpace (0, 1) = RecResult.ok " " ∧
    (" " : String) ≠ "" ∧
    pyStrip " " = "" ∧
    transcribeWindows recogAllSpace ([] ++ (0, 1) :: []) =
      transcribeWindows recogAllSpace ([] ++ []) :=
  ⟨rfl, by decide, by decide,
   (whitespace_window_semantics recogAllSpace (0, 1) " " rfl (by decide)
     (by decide)).1 [] []⟩

/-- Helper lemma: loop invariant for `chunkLoop`.  From a cursor `i` with
`0 ≤ i < len`, given enough fuel and `0 < overlap_ms < chunk_ms`, the loop
terminates and appends a non-empty run of windows whose first window is
`(i, min (i + chunk_ms) len)`, whose last window ends at `len`, whose
windows all lie in `[i, len]` with positive length, in which every window
with a successor has length `chunk_ms` and is followed by a window starting
at its end minus `overlap_ms` (hence at a strictly larger start), and whose
union covers `[i, len)`. -/
theorem chunkLoop_spec (len chunk_ms overlap_ms : Int)
    (hO : 0 < overlap_ms) (hOC : overlap_ms < chunk_ms) :
    ∀ (fuel : Nat) (i : Int) (acc : List (Int × Int)),
      0 ≤ i → i < len → (len - i).toNat < fuel →
      ∃ rest : List (Int × Int),
        chunkLoop fuel i len chunk_ms overlap_ms acc = some (acc ++ rest) ∧
        rest.head? = some (i, min (i + chunk_ms) len) ∧
        rest.getLast?.map Prod.snd = some len ∧
        (∀ w ∈ rest, i ≤ w.1 ∧ w.1 < w.2 ∧ w.2 ≤ len) ∧
        List.Chain'
          (fun a b => a.2 - a.1 = chunk_ms ∧ b.1 = a.2 - overlap_ms ∧
            a.1 < b.1) rest ∧
        (∀ t : Int, i ≤ t → t < len → ∃ w ∈ rest, w.1 ≤ t ∧ t < w.2) := by
  intro fuel
  induction fuel with
  | zero => intro i acc _ _ hfuel; omega
  | succ f ih =>
    intro i acc hi0 hilen hfuel
    by_cases he : min (i + chunk_ms) len = len
    · refine ⟨[(i, min (i + chunk_ms) len)], ?_, rfl, ?_, ?_, ?_, ?_⟩
      · simp only [chunkLoop, if_pos hilen, if_pos he]
      · simp [he]
      · intro w hw
        rw [List.mem_singleton] at hw
        subst hw
        exact ⟨le_refl i, lt_min (by omega) hilen, min_le_right _ _⟩
      · simp
      · intro t ht1 ht2
        exact ⟨(i, min (i + chunk_ms) len), List.mem_singleton_self _,
          ht1, by rw [he]; exact ht2⟩
    · have hmin : i + chunk_ms < len := by
        rcases le_or_lt len (i + chunk_ms) with h | h
        · exact absurd (min_eq_right h) he
        · exact h
      have heq : min (i + chunk_ms) len = i + chunk_ms :=
        min_eq_left (le_of_lt hmin)
      have hi'0 : 0 ≤ min (i + chunk_ms) len - overlap_ms := by
        rw [heq]; omega
      have hi'len : min (i + chunk_ms) len - overlap_ms < len := by
        rw [heq]; omega
      have hfuel' :
          (len - (min (i + chunk_ms) len - overlap_ms)).toNat < f := by
        rw [heq]; omega
      obtain ⟨rest, hrun, hhead, hlast, hbounds, hchain, hcover⟩ :=
        ih (min (i + chunk_ms) len - overlap_ms)
          (acc ++ [(i, min (i + chunk_ms) len)]) hi'0 hi'len hfuel'
      refine ⟨(i, min (i + chunk_ms) len) :: rest, ?_, rfl, ?_, ?_, ?_, ?_⟩
      · rw [show chunkLoop (f + 1) i len chunk_ms overlap_ms acc =
            chunkLoop f (min (i + chunk_ms) len - overlap_ms) len chunk_ms
              overlap_ms (acc ++ [(i, min (i + chunk_ms) len)]) from by
          simp only [chunkLoop, if_pos hilen, if_neg he], hrun]
        simp
      · cases rest with
        | nil => simp at hhead
        | cons b l => simpa using hlast
      · intro w hw
        rcases List.mem_cons.mp hw with hw | hw
        · subst hw
          exact ⟨le_refl i, lt_min (by omega) hilen, min_le_right _ _⟩
        · obtain ⟨h1, h2, h3⟩ := hbounds w hw
          exact ⟨by rw [heq] at h1; omega, h2, h3⟩
      · rw [List.chain'_cons']
        refine ⟨?_, hchain⟩
        intro y hy
        rw [hhead, Option.mem_some_iff] at hy
        subst hy
        refine ⟨by rw [heq]; ring, rfl, ?_⟩
        rw [heq]
        omega
      · intro t ht1 ht2
        rcases lt_or_le t (min (i + chunk_ms) len) with h | h
        · exact ⟨(i, min (i + chunk_ms) len), List.mem_cons_self _ _,
            ht1, h⟩
        · have hle : min (i + chunk_ms) len - overlap_ms ≤ t := by
            rw [heq] at h ⊢; omega
          obtain ⟨w, hw, h1, h2⟩ := hcover t hle ht2
          exact ⟨w, List.mem_cons_of_mem _ hw, h1, h2⟩

/-- Helper lemma: with `0 < overlap_ms < chunk_ms` and enough fuel, the
`chunkLoop` recursion always produces a result. -/
theorem chunkLoop_isSome (len chunk_ms overlap_ms : Int)
    (hO : 0 < overlap_ms) (hOC : overlap_ms < chunk_ms) :
    ∀ (fuel : Nat) (i : Int) (acc : List (Int × Int)),
      0 ≤ i → (len - i).toNat < fuel →
      (chunkLoop fuel i len chunk_ms overlap_ms acc).isSome := by
  intro fuel
  induction fuel with
  | zero => intro i acc _ hfuel; omega
  | succ f ih =>
    intro i acc hi0 hfuel
    by_cases hilen : i < len
    · by_cases he : min (i + chunk_ms) len = len
      · simp only [chunkLoop, if_pos hilen, if_pos he, Option.isSome_some]
      · have hmin : i + chunk_ms < len := by
          rcases le_or_lt len (i + chunk_ms) with h | h
          · exact absurd (min_eq_right h) he
          · exact h
        have heq : min (i + chunk_ms) len = i + chunk_ms :=
          min_eq_left (le_of_lt hmin)
        rw [show chunkLoop (f + 1) i len chunk_ms overlap_ms acc =
            chunkLoop f (min (i + chunk_ms) len - overlap_ms) len chunk_ms
              overlap_ms (acc ++ [(i, min (i + chunk_ms) len)]) from by
          simp only [chunkLoop, if_pos hilen, if_neg he]]
        exact ih _ _ (by rw [heq]; omega) (by rw [heq]; omega)
    · simp [chunkLoop, if_neg hilen]

/-- C1: for `0 < overlap_ms < chunk_ms ≤ len`, `chunk_audio` returns an
ordered window list whose first window starts at 0, whose last window ends
exactly at `len`, in which every non-final window has length exactly
`chunk_ms` and every window after the first starts at the previous window's
end minus `overlap_ms`, and whose union covers `[0, len)` with no gaps. -/
theorem chunk_audio_covers (len chunk_ms overlap_ms : Int)
    (hO : 0 < overlap_ms) (hOC : overlap_ms < chunk_ms)
    (hCD : chunk_ms ≤ len) :
    ∃ ws : List (Int × Int),
      chunk_audio len chunk_ms overlap_ms = some ws ∧
      ws.head?.map Prod.fst = some 0 ∧
      ws.getLast?.map Prod.snd = some len ∧
      List.Chain'
        (fun a b => a.2 - a.1 = chunk_ms ∧ b.1 = a.2 - overlap_ms ∧
          a.1 < b.1) ws ∧
      (∀ t : Int, 0 ≤ t → t < len → ∃ w ∈ ws, w.1 ≤ t ∧ t < w.2) := by
  have hlen : (0 : Int) < len := by omega
  obtain ⟨rest, hrun, hhead, hlast, _, hchain, hcover⟩ :=
    chunkLoop_spec len chunk_ms overlap_ms hO hOC (len.toNat + 1) 0 []
      le_rfl hlen (by omega)
  refine ⟨rest, by simpa [chunk_audio] using hrun, ?_, hlast, hchain, hcover⟩
  rw [hhead]
  rfl

/-- C1 witness: duration 5, chunk 3, overlap 1 satisfies the hypotheses and
the produced windows cover the input as described. -/
theorem chunk_audio_covers_witness :
    (0 : Int) < 1 ∧ (1 : Int) < 3 ∧ (3 : Int) ≤ 5 ∧
    ∃ ws : List (Int × Int),
      chunk_audio 5 3 1 = some ws ∧
      ws.head?.map Prod.fst = some 0 ∧
      ws.getLast?.map Prod.snd = some 5 ∧
      List.Chain'
        (fun a b => a.2 - a.1 = 3 ∧ b.1 = a.2 - 1 ∧ a.1 < b.1) ws ∧
      (∀ t : Int, 0 ≤ t → t < 5 → ∃ w ∈ ws, w.1 ≤ t ∧ t < w.2) :=
  ⟨by decide, by decide, by decide,
   chunk_audio_covers 5 3 1 (by decide) (by decide) (by decide)⟩

/-- C7: whenever `0 < overlap_ms < chunk_ms`, the windowing loop of
`chunk_audio` terminates within the supplied fuel bound for every duration,
so `chunk_audio` produces a result. -/
theorem chunk_audio_terminates (len chunk_ms overlap_ms : Int)
    (hO : 0 < overlap_ms) (hOC : overlap_ms < chunk_ms) :
    (chunk_audio len chunk_ms overlap_ms).isSome := by
  rw [chunk_audio]
  exact chunkLoop_isSome len chunk_ms overlap_ms hO hOC (len.toNat + 1) 0 []
    le_rfl (by omega)

/-- C7 witness: with chunk 3 and overlap 1 the loop terminates on duration
5. -/
theorem chunk_audio_terminates_witness :
    (0 : Int) < 1 ∧ (1 : Int) < 3 ∧ (chunk_audio 5 3 1).isSome :=
  ⟨by decide, by decide, chunk_audio_terminates 5 3 1 (by decide) (by decide)⟩

/-- C8: every window produced by `chunk_audio` for a positive duration with
`0 < chunk_ms` and `0 < overlap_ms < chunk_ms` satisfies
`0 ≤ start_ms < end_ms ≤ len`. -/
theorem chunk_audio_window_bounds (len chunk_ms overlap_ms : Int)
    (ws : List (Int × Int)) (w : Int × Int) (hlen : 0 < len)
    (hC : 0 < chunk_ms) (hO : 0 < overlap_ms) (hOC : overlap_ms < chunk_ms)
    (hws : chunk_audio len chunk_ms overlap_ms = some ws) (hw : w ∈ ws) :
    0 ≤ w.1 ∧ w.1 < w.2 ∧ w.2 ≤ len := by
  obtain ⟨rest, hrun, _, _, hbounds, _, _⟩ :=
    chunkLoop_spec len chunk_ms overlap_ms hO hOC (len.toNat + 1) 0 []
      le_rfl hlen (by omega)
  rw [chunk_audio] at hws
  rw [hws, List.nil_append, Option.some_inj] at hrun
  exact hbounds w (hrun ▸ hw)

/-- C8 witness: for duration 5, chunk 3, overlap 1 the first produced
window `(0, 3)` lies within bounds. -/
theorem chunk_audio_window_bounds_witness :
    (0 : Int) < 5 ∧ (0 : Int) < 3 ∧ (0 : Int) < 1 ∧ (1 : Int) < 3 ∧
    chunk_audio 5 3 1 = some [(0, 3), (2, 5)] ∧
    ((0, 3) : Int × Int) ∈ [((0 : Int), (3 : Int)), (2, 5)] ∧
    (0 : Int) ≤ ((0, 3) : Int × Int).1 ∧
    ((0, 3) : Int × Int).1 < ((0, 3) : Int × Int).2 ∧
    ((0, 3) : Int × Int).2 ≤ 5 :=
  ⟨by decide, by decide, by decide, by decide, by decide, by decide,
   (chunk_audio_window_bounds 5 3 1 [(0, 3), (2, 5)] (0, 3) (by decide)
     (by decide) (by decide) (by decide) (by decide) (by decide)).1,
   (chunk_audio_window_bounds 5 3 1 [(0, 3), (2, 5)] (0, 3) (by decide)
     (by decide) (by decide) (by decide) (by decide) (by decide)).2.1,
   (chunk_audio_window_bounds 5 3 1 [(0, 3), (2, 5)] (0, 3) (by decide)
     (by decide) (by decide) (by decide) (by decide) (by decide)).2.2⟩

/-- C3 counterexample: at duration 0 (which satisfies `D ≤ C`),
`chunk_audio` returns the empty window list, not the single window
`(0, 0)`. -/
theorem chunk_audio_zero_duration_counterexample :
    chunk_audio 0 30000 1000 = some [] ∧
    some ([] : List (Int × Int)) ≠ some [((0 : Int), (0 : Int))] :=
  ⟨by decide, by decide⟩

/-- C3 amended: for every positive duration at most the chunk length,
`chunk_audio` produces exactly one window `(0, len)`. -/
theorem chunk_audio_single_window (len chunk_ms overlap_ms : Int)
    (hpos : 0 < len) (hle : len ≤ chunk_ms) :
    chunk_audio len chunk_ms overlap_ms = some [(0, len)] := by
  have hmin : min ((0 : Int) + chunk_ms) len = len := by
    rw [zero_add]; exact min_eq_right hle
  rw [chunk_audio]
  simp only [chunkLoop, if_pos hpos, hmin]
  simp

/-- C3 amended witness: duration 5 with chunk 30000 yields the single
window `(0, 5)`. -/
theorem chunk_audio_single_window_witness :
    (0 : Int) < 5 ∧ (5 : Int) ≤ 30000 ∧
    chunk_audio 5 30000 1000 = some [(0, 5)] :=
  ⟨by decide, by decide, chunk_audio_single_window 5 30000 1000 (by decide)
    (by decide)⟩
